import Mathlib

/-!
Shallow embedding of the e-commerce API core (app/crud.py, app/routers/orders.py,
app/routers/cart.py, app/routers/products.py, app/models.py, app/schemas.py).

Conventions:
* SQLAlchemy rows become Lean structures; the session/database becomes an explicit
  `DB` record threaded through every operation.
* Integer columns (`stock`, `quantity`) are `Int` — the schema puts no sign
  constraint on them and the code can drive them negative.
* `Float` price columns are modelled as `ℚ`; the arithmetic performed on them
  (products and sums) is exact at the small magnitudes of interest.
* `query(...).filter(...).first()` becomes `(list.filter ...).head?`; mutating a
  fetched row and committing becomes updating the first matching list element.
* Autoincrement order ids become an explicit `nextOrderId` counter.
* Each `db.commit()` is a durability point; `checkoutCommitStates` records the
  committed state after every commit inside steps 5–7 of checkout.
-/

namespace ECom

/-- models.UserRole. -/
inductive Role where
  | admin
  | customer
  deriving DecidableEq

/-- The authenticated caller (id and role), as produced by auth.get_current_user. -/
structure User where
  id : Nat
  role : Role
  deriving DecidableEq

/-- models.OrderStatus. -/
inductive OrderStatus where
  | pending
  | paid
  | shipped
  | delivered
  deriving DecidableEq

/-- models.Product row (description column omitted: never read by the modelled code). -/
structure Product where
  id : Nat
  name : String
  price : ℚ
  stock : Int
  categoryId : Nat
  deriving DecidableEq

/-- models.Cart row: one line of a user's cart (surrogate id column omitted:
the code keys every access on (user_id, product_id)). -/
structure CartLine where
  userId : Nat
  productId : Nat
  quantity : Int
  deriving DecidableEq

/-- models.Order row (created_at omitted). -/
structure Order where
  id : Nat
  userId : Nat
  totalPrice : ℚ
  status : OrderStatus
  deriving DecidableEq

/-- models.OrderItem row (surrogate id omitted). `price` is the unit price
snapshotted at checkout time. -/
structure OrderItem where
  orderId : Nat
  productId : Nat
  quantity : Int
  price : ℚ
  deriving DecidableEq

/-- The durable store: the committed contents of all tables, plus the
autoincrement counter for order ids. Categories are kept as a set of ids,
which is all verify_category_exists needs. -/
structure DB where
  categories : List Nat
  products : List Product
  cart : List CartLine
  orders : List Order
  orderItems : List OrderItem
  nextOrderId : Nat
  deriving DecidableEq

/-! ### crud.py read operations -/

/-- crud.get_product: `query(Product).filter(id == productId).first()`. -/
def getProduct (db : DB) (productId : Nat) : Option Product :=
  (db.products.filter (fun p => p.id == productId)).head?

/-- crud.get_product_by_name. -/
def getProductByName (db : DB) (name : String) : Option Product :=
  (db.products.filter (fun p => p.name == name)).head?

/-- crud.get_cart_items: all cart rows of one user. -/
def getCartItems (db : DB) (userId : Nat) : List CartLine :=
  db.cart.filter (fun c => c.userId == userId)

/-- crud.get_cart_item: first cart row matching (user_id, product_id). -/
def getCartItem (db : DB) (userId productId : Nat) : Option CartLine :=
  (db.cart.filter (fun c => c.userId == userId && c.productId == productId)).head?

/-! ### helpers for in-place row mutation

SQLAlchemy mutates the row object returned by `.first()` and commits; we update
the first matching element of the table list. -/

def updateFirstCart (cart : List CartLine) (userId productId : Nat)
    (f : CartLine → CartLine) : List CartLine :=
  match cart with
  | [] => []
  | c :: rest =>
    if c.userId == userId && c.productId == productId then f c :: rest
    else c :: updateFirstCart rest userId productId f

def removeFirstCart (cart : List CartLine) (userId productId : Nat) : List CartLine :=
  match cart with
  | [] => []
  | c :: rest =>
    if c.userId == userId && c.productId == productId then rest
    else c :: removeFirstCart rest userId productId

def updateFirstProduct (ps : List Product) (productId : Nat)
    (f : Product → Product) : List Product :=
  match ps with
  | [] => []
  | p :: rest =>
    if p.id == productId then f p :: rest
    else p :: updateFirstProduct rest productId f

def removeFirstProduct (ps : List Product) (productId : Nat) : List Product :=
  match ps with
  | [] => []
  | p :: rest =>
    if p.id == productId then rest
    else p :: removeFirstProduct rest productId

def updateFirstOrder (os : List Order) (orderId : Nat)
    (f : Order → Order) : List Order :=
  match os with
  | [] => []
  | o :: rest =>
    if o.id == orderId then f o :: rest
    else o :: updateFirstOrder rest orderId f

/-! ### crud.py write operations -/

/-- crud.add_to_cart: merge into the existing (user, product) line, else insert. -/
def addToCart (db : DB) (userId productId : Nat) (quantity : Int) : DB × CartLine :=
  match getCartItem db userId productId with
  | some existing =>
    let cart1 := updateFirstCart db.cart userId productId
      (fun c => { c with quantity := c.quantity + quantity })
    ({ db with cart := cart1 }, { existing with quantity := existing.quantity + quantity })
  | none =>
    let line : CartLine := { userId := userId, productId := productId, quantity := quantity }
    ({ db with cart := db.cart ++ [line] }, line)

/-- crud.update_cart_item: replace the quantity outright; None if no such line. -/
def updateCartItem (db : DB) (userId productId : Nat) (quantity : Int) :
    DB × Option CartLine :=
  match getCartItem db userId productId with
  | none => (db, none)
  | some c =>
    let cart1 := updateFirstCart db.cart userId productId
      (fun l => { l with quantity := quantity })
    ({ db with cart := cart1 }, some { c with quantity := quantity })

/-- crud.remove_from_cart: delete the line, return whether it existed. -/
def removeFromCart (db : DB) (userId productId : Nat) : DB × Bool :=
  match getCartItem db userId productId with
  | none => (db, false)
  | some _ => ({ db with cart := removeFirstCart db.cart userId productId }, true)

/-- crud.clear_cart: delete every cart line of the user. -/
def clearCart (db : DB) (userId : Nat) : DB :=
  { db with cart := db.cart.filter (fun c => !(c.userId == userId)) }

/-- crud.create_order: new Order row; status defaults to pending (models.Order). -/
def createOrder (db : DB) (userId : Nat) (totalPrice : ℚ) : DB × Order :=
  let order : Order :=
    { id := db.nextOrderId, userId := userId, totalPrice := totalPrice,
      status := .pending }
  ({ db with orders := db.orders ++ [order], nextOrderId := db.nextOrderId + 1 }, order)

/-- crud.create_order_item. -/
def createOrderItem (db : DB) (orderId productId : Nat) (quantity : Int) (price : ℚ) : DB :=
  { db with orderItems := db.orderItems ++
      [{ orderId := orderId, productId := productId, quantity := quantity, price := price }] }

/-- crud.update_order_status. -/
def updateOrderStatus (db : DB) (orderId : Nat) (status : OrderStatus) :
    DB × Option Order :=
  match (db.orders.filter (fun o => o.id == orderId)).head? with
  | none => (db, none)
  | some o =>
    let orders1 := updateFirstOrder db.orders orderId
      (fun x => { x with status := status })
    ({ db with orders := orders1 }, some { o with status := status })

/-- schemas.ProductUpdate: every field optional, and — unlike schemas.ProductCreate —
with no validator on any of them. -/
structure ProductUpdate where
  name : Option String := none
  price : Option ℚ := none
  stock : Option Int := none
  categoryId : Option Nat := none

/-- The dynamic setattr loop of crud.update_product: set exactly the provided fields. -/
def applyProductUpdate (p : Product) (u : ProductUpdate) : Product :=
  { p with
    name := u.name.getD p.name
    price := u.price.getD p.price
    stock := u.stock.getD p.stock
    categoryId := u.categoryId.getD p.categoryId }

/-- crud.update_product. -/
def updateProduct (db : DB) (productId : Nat) (u : ProductUpdate) :
    DB × Option Product :=
  match getProduct db productId with
  | none => (db, none)
  | some p =>
    let products1 := updateFirstProduct db.products productId
      (fun q => applyProductUpdate q u)
    ({ db with products := products1 }, some (applyProductUpdate p u))

/-- crud.create_product (the row to insert is given explicitly). -/
def createProduct (db : DB) (p : Product) : DB :=
  { db with products := db.products ++ [p] }

/-- crud.delete_product. -/
def deleteProduct (db : DB) (productId : Nat) : DB × Bool :=
  match getProduct db productId with
  | none => (db, false)
  | some _ => ({ db with products := removeFirstProduct db.products productId }, true)

/-! ### routers/orders.py checkout -/

/-- The failure outcomes of the checkout handler. `insufficientStock` carries the
product name and available stock exactly as the HTTP detail string does;
`internalFault` stands for a `product = None` crash inside the mutation loop
(an uncaught exception in the Python code). -/
inductive CheckoutError where
  | forbidden
  | emptyCart
  | productMissing (productId : Nat)
  | insufficientStock (name : String) (available : Int)
  | internalFault
  deriving DecidableEq

/-- The first loop of checkout (steps 2–4): per cart line, fetch the product
(ProductMissing on absence), check `product.stock < quantity` (InsufficientStock),
and accumulate `price * quantity` into the total. The first failing line aborts. -/
def validateItems (db : DB) : List CartLine → Except CheckoutError ℚ
  | [] => .ok 0
  | item :: rest =>
    match getProduct db item.productId with
    | none => .error (.productMissing item.productId)
    | some p =>
      if p.stock < item.quantity then
        .error (.insufficientStock p.name p.stock)
      else
        match validateItems db rest with
        | .error e => .error e
        | .ok t => .ok (p.price * (item.quantity : ℚ) + t)

/-- `product.stock -= quantity; db.commit()`: decrement the stock of the fetched row. -/
def decStock (db : DB) (productId : Nat) (amount : Int) : DB :=
  let products1 := updateFirstProduct db.products productId
    (fun p => { p with stock := p.stock - amount })
  { db with products := products1 }

/-- The second loop of checkout (step 6): per cart line, re-fetch the product,
insert the OrderItem snapshot (commit), then decrement stock (commit).
Returns `false` if a re-fetch comes back empty (the Python code would crash
there, after the commits already made). -/
def mutateItems (db : DB) (orderId : Nat) : List CartLine → DB × Bool
  | [] => (db, true)
  | item :: rest =>
    match getProduct db item.productId with
    | none => (db, false)
    | some p =>
      let db1 := createOrderItem db orderId item.productId item.quantity p.price
      let db2 := decStock db1 item.productId item.quantity
      mutateItems db2 orderId rest

/-- routers/orders.py checkout: admin gate, cart load, validation loop,
order creation, mutation loop, cart clear. Returns the resulting committed
database together with the HTTP outcome. -/
def checkout (db : DB) (user : User) : DB × Except CheckoutError Order :=
  if user.role = .admin then (db, .error .forbidden)
  else
    let cartItems := getCartItems db user.id
    if cartItems.isEmpty then (db, .error .emptyCart)
    else
      match validateItems db cartItems with
      | .error e => (db, .error e)
      | .ok total =>
        let p1 := createOrder db user.id total
        match mutateItems p1.1 p1.2.id cartItems with
        | (db2, false) => (db2, .error .internalFault)
        | (db2, true) => (clearCart db2 user.id, .ok p1.2)

/-- The committed states produced by the mutation loop: after the
create_order_item commit and after the stock-decrement commit of each line. -/
def mutateCommitStates (db : DB) (orderId : Nat) : List CartLine → List DB
  | [] => []
  | item :: rest =>
    match getProduct db item.productId with
    | none => []
    | some p =>
      let db1 := createOrderItem db orderId item.productId item.quantity p.price
      let db2 := decStock db1 item.productId item.quantity
      db1 :: db2 :: mutateCommitStates db2 orderId rest

/-- Every committed (durable) state reached during steps 5–7 of a checkout whose
validation passed: index 0 is the state after the create_order commit, then two
states per cart line (order-item insert commit, stock-decrement commit), and
finally the state after the clear_cart commit. A storage fault after the k-th
commit leaves exactly the state at index k − 1 behind, because each of these
`db.commit()` calls ends its own transaction. -/
def checkoutCommitStates (db : DB) (user : User) : List DB :=
  if user.role = .admin then []
  else
    let cartItems := getCartItems db user.id
    if cartItems.isEmpty then []
    else
      match validateItems db cartItems with
      | .error _ => []
      | .ok total =>
        let p1 := createOrder db user.id total
        p1.1 :: (mutateCommitStates p1.1 p1.2.id cartItems
          ++ [clearCart (mutateItems p1.1 p1.2.id cartItems).1 user.id])

/-- Steps 1–4 of checkout in isolation: purely reads, returning the cart lines
it captured and the computed total. -/
def checkoutValidatePhase (db : DB) (user : User) :
    Except CheckoutError (List CartLine × ℚ) :=
  if user.role = .admin then .error .forbidden
  else
    let cartItems := getCartItems db user.id
    if cartItems.isEmpty then .error .emptyCart
    else
      match validateItems db cartItems with
      | .error e => .error e
      | .ok total => .ok (cartItems, total)

/-- Steps 5–7 of checkout in isolation, run against whatever the store holds
when the mutation begins, with the cart lines and total captured earlier. -/
def checkoutMutatePhase (db : DB) (user : User) (cartItems : List CartLine)
    (total : ℚ) : DB × Except CheckoutError Order :=
  let p1 := createOrder db user.id total
  match mutateItems p1.1 p1.2.id cartItems with
  | (db2, false) => (db2, .error .internalFault)
  | (db2, true) => (clearCart db2 user.id, .ok p1.2)

/-- Two checkout requests for the same user interleaved as
validate₁; validate₂; mutate₁; mutate₂. This schedule is legal for the code as
written: every store call commits (ends its transaction) before returning, and
no lock or transaction spans the gap between step 3's stock check and step 6's
decrement, so a second request may run its whole validation inside that gap. -/
def twoInterleavedCheckouts (db : DB) (user : User) :
    DB × Except CheckoutError Order × Except CheckoutError Order :=
  match checkoutValidatePhase db user with
  | .error e => (db, .error e, .error e)
  | .ok (items, total) =>
    let r1 := checkoutMutatePhase db user items total
    let r2 := checkoutMutatePhase r1.1 user items total
    (r2.1, r1.2, r2.2)

/-! ### routers/cart.py handlers -/

inductive CartApiError where
  | productNotFound
  | insufficientStock (available : Int)
  | cartItemNotFound
  deriving DecidableEq

/-- POST /cart/add: product must exist and have `stock >= quantity`; then
crud.add_to_cart. No lower bound on the quantity is checked anywhere
(schemas.CartItemCreate has no validator). -/
def apiAddToCart (db : DB) (userId productId : Nat) (quantity : Int) :
    DB × Except CartApiError CartLine :=
  match getProduct db productId with
  | none => (db, .error .productNotFound)
  | some p =>
    if p.stock < quantity then (db, .error (.insufficientStock p.stock))
    else
      let r := addToCart db userId productId quantity
      (r.1, .ok r.2)

/-- PUT /cart/\x7bproduct_id\x7d: product must exist and have `stock >= quantity`;
then crud.update_cart_item (404 when no such cart line). Again no lower bound
on the quantity (schemas.CartItemUpdate is a bare `quantity : int`). -/
def apiUpdateCartItem (db : DB) (userId productId : Nat) (quantity : Int) :
    DB × Except CartApiError CartLine :=
  match getProduct db productId with
  | none => (db, .error .productNotFound)
  | some p =>
    if p.stock < quantity then (db, .error (.insufficientStock p.stock))
    else
      match updateCartItem db userId productId quantity with
      | (db1, none) => (db1, .error .cartItemNotFound)
      | (db1, some line) => (db1, .ok line)

/-- DELETE /cart/\x7bproduct_id\x7d: 404 when crud.remove_from_cart returns False. -/
def apiRemoveFromCart (db : DB) (userId productId : Nat) :
    DB × Except CartApiError Unit :=
  match removeFromCart db userId productId with
  | (db1, false) => (db1, .error .cartItemNotFound)
  | (db1, true) => (db1, .ok ())

/-! ### routers/products.py update handler -/

inductive ProductApiError where
  | productNotFound
  | categoryNotFound
  | duplicateName
  deriving DecidableEq

/-- PUT /products/\x7bproduct_id\x7d (admin only): existence check, category check
(only when a truthy category_id is provided), duplicate-name check (only when a
truthy name different from the current one is provided), then crud.update_product.
Nothing anywhere checks the sign of a provided stock value. -/
def apiUpdateProduct (db : DB) (productId : Nat) (u : ProductUpdate) :
    DB × Except ProductApiError Product :=
  match getProduct db productId with
  | none => (db, .error .productNotFound)
  | some existing =>
    if u.categoryId.getD 0 ≠ 0 ∧ ¬ (u.categoryId.getD 0 ∈ db.categories) then
      (db, .error .categoryNotFound)
    else if u.name.getD "" ≠ "" ∧ u.name.getD "" ≠ existing.name
        ∧ (getProductByName db (u.name.getD "")).isSome then
      (db, .error .duplicateName)
    else
      match updateProduct db productId u with
      | (db1, none) => (db1, .error .productNotFound)
      | (db1, some p) => (db1, .ok p)

/-! ### Spec-side quantities -/

/-- The current unit price of a product (0 when absent; only used where the
product is known to exist). -/
def priceOf (db : DB) (productId : Nat) : ℚ :=
  ((getProduct db productId).map Product.price).getD 0

/-- Σ over cart lines of current product price × line quantity. -/
def cartTotal (db : DB) (items : List CartLine) : ℚ :=
  (items.map (fun it => priceOf db it.productId * (it.quantity : ℚ))).sum

/-- Total quantity the given cart lines request of one product. -/
def qtyOf (items : List CartLine) (productId : Nat) : Int :=
  ((items.filter (fun it => it.productId == productId)).map CartLine.quantity).sum

/-- The OrderItem snapshot a checkout writes for one cart line: product id,
quantity, and unit price as currently stored. -/
def snapItem (oid : Nat) (db : DB) (it : CartLine) : OrderItem :=
  { orderId := oid, productId := it.productId, quantity := it.quantity,
    price := priceOf db it.productId }

/-- The Order header a successful checkout of the given user's cart creates. -/
def pendingOrder (db : DB) (user : User) : Order :=
  { id := db.nextOrderId, userId := user.id,
    totalPrice := cartTotal db (getCartItems db user.id), status := .pending }

/-- Invariant: every persisted order's total equals the sum over its order
items of quantity × snapshotted price. -/
def ordersTotalsOk (db : DB) : Prop :=
  ∀ o ∈ db.orders, o.totalPrice =
    (((db.orderItems.filter (fun it => it.orderId == o.id)).map
      (fun it => (it.quantity : ℚ) * it.price)).sum)

/-- Well-formedness of the order-id counter: every existing order and order
item carries an id below the next id to be allocated. -/
def WF (db : DB) : Prop :=
  (∀ o ∈ db.orders, o.id < db.nextOrderId) ∧
  (∀ it ∈ db.orderItems, it.orderId < db.nextOrderId)

/-- One committed operation of the system, through its public interface. -/
inductive Step : DB → DB → Prop where
  | addCart (db : DB) (userId productId : Nat) (q : Int) :
      Step db (apiAddToCart db userId productId q).1
  | updateCart (db : DB) (userId productId : Nat) (q : Int) :
      Step db (apiUpdateCartItem db userId productId q).1
  | removeCart (db : DB) (userId productId : Nat) :
      Step db (apiRemoveFromCart db userId productId).1
  | clear (db : DB) (userId : Nat) :
      Step db (clearCart db userId)
  | newProduct (db : DB) (p : Product) :
      Step db (createProduct db p)
  | editProduct (db : DB) (productId : Nat) (u : ProductUpdate) :
      Step db (apiUpdateProduct db productId u).1
  | dropProduct (db : DB) (productId : Nat) :
      Step db (deleteProduct db productId).1
  | orderStatus (db : DB) (orderId : Nat) (s : OrderStatus) :
      Step db (updateOrderStatus db orderId s).1
  | doCheckout (db : DB) (user : User) :
      Step db (checkout db user).1

/-! ### Concrete stores used as evaluation inputs -/

/-- A customer caller. -/
def cust7 : User := { id := 7, role := .customer }

/-- Scenario C store: one product, price 19.99, stock 10; user 7's cart holds
quantity 2 of it. -/
def dbScenC : DB :=
  { categories := [1],
    products := [{ id := 1, name := "Widget", price := 1999/100, stock := 10, categoryId := 1 }],
    cart := [{ userId := 7, productId := 1, quantity := 2 }],
    orders := [], orderItems := [], nextOrderId := 1 }

/-- Scenario B store: stock 5, cart asks for 10. -/
def dbScenB : DB :=
  { categories := [1],
    products := [{ id := 1, name := "Widget", price := 1999/100, stock := 5, categoryId := 1 }],
    cart := [{ userId := 7, productId := 1, quantity := 10 }],
    orders := [], orderItems := [], nextOrderId := 1 }

/-- Scenario D store: stock 1, cart quantity 1. -/
def dbScenD : DB :=
  { categories := [1],
    products := [{ id := 1, name := "Widget", price := 5, stock := 1, categoryId := 1 }],
    cart := [{ userId := 7, productId := 1, quantity := 1 }],
    orders := [], orderItems := [], nextOrderId := 1 }

/-- Two-line store for the fault-injection run: two products, user 7's cart
holds one line for each. -/
def dbTwoLines : DB :=
  { categories := [1],
    products := [{ id := 1, name := "A", price := 2, stock := 4, categoryId := 1 },
                 { id := 2, name := "B", price := 3, stock := 6, categoryId := 1 }],
    cart := [{ userId := 7, productId := 1, quantity := 1 },
             { userId := 7, productId := 2, quantity := 2 }],
    orders := [], orderItems := [], nextOrderId := 1 }

/-- The committed store left behind when a storage fault aborts the checkout on
`dbTwoLines` right after the create_order_item commit of the first cart line
(commit index 1 of steps 5–7). -/
def faultedState : DB :=
  ((checkoutCommitStates dbTwoLines cust7).get? 1).getD dbTwoLines

/-- Store with one product (stock 10) and an empty cart. -/
def dbEmptyCart : DB :=
  { categories := [1],
    products := [{ id := 1, name := "Widget", price := 1999/100, stock := 10, categoryId := 1 }],
    cart := [], orders := [], orderItems := [], nextOrderId := 1 }

/-- The admin product update that sets stock to −5 and touches nothing else. -/
def negStockUpdate : ProductUpdate := { stock := some (-5) }

/-! ### Basic lemmas -/

theorem getProduct_createOrderItem (db : DB) (oid pid : Nat) (q : Int) (pr : ℚ) (x : Nat) :
    getProduct (createOrderItem db oid pid q pr) x = getProduct db x := rfl

theorem getProduct_createOrder (db : DB) (uid : Nat) (t : ℚ) (x : Nat) :
    getProduct (createOrder db uid t).1 x = getProduct db x := rfl

theorem getProduct_clearCart (db : DB) (uid x : Nat) :
    getProduct (clearCart db uid) x = getProduct db x := rfl

theorem filterHead_updateFirstProduct (ps : List Product) (pid : Nat)
    (f : Product → Product) (hf : ∀ p, (f p).id = p.id) (x : Nat) :
    ((updateFirstProduct ps pid f).filter (fun p => p.id == x)).head? =
      if x = pid then ((ps.filter (fun p => p.id == x)).head?).map f
      else (ps.filter (fun p => p.id == x)).head? := by
  induction ps with
  | nil => simp [updateFirstProduct]
  | cons p rest ih =>
    by_cases hpp : p.id = pid
    · by_cases hx : x = pid
      · subst hx
        simp [updateFirstProduct, hpp, List.filter_cons, hf]
      · have hpx : ¬ p.id = x := fun h => hx (h ▸ hpp.symm ▸ rfl)
        have hfx : ¬ (f p).id = x := by rw [hf]; exact hpx
        have hx2 : ¬ pid = x := fun h => hx h.symm
        simp [updateFirstProduct, hpp, List.filter_cons, hpx, hfx, hx, hx2]
    · by_cases hpx : p.id = x
      · have hx : ¬ x = pid := fun h => hpp (hpx.trans h)
        simp [updateFirstProduct, hpp, List.filter_cons, hpx, hx]
      · simp [updateFirstProduct, hpp, List.filter_cons, hpx, ih]

theorem getProduct_decStock (db : DB) (pid : Nat) (amt : Int) (x : Nat) :
    getProduct (decStock db pid amt) x =
      if x = pid then (getProduct db x).map (fun p => { p with stock := p.stock - amt })
      else getProduct db x := by
  have h := filterHead_updateFirstProduct db.products pid
    (fun p => { p with stock := p.stock - amt }) (fun _ => rfl) x
  simpa [getProduct, decStock] using h

theorem getProduct_updateProduct (db : DB) (pid : Nat) (u : ProductUpdate) (x : Nat) :
    getProduct (updateProduct db pid u).1 x =
      if getProduct db pid = none then getProduct db x
      else if x = pid then (getProduct db x).map (fun p => applyProductUpdate p u)
      else getProduct db x := by
  have h := filterHead_updateFirstProduct db.products pid
    (fun q => applyProductUpdate q u) (fun _ => rfl) x
  unfold updateProduct
  cases hp : getProduct db pid with
  | none => simp [hp]
  | some p => simpa [hp, getProduct] using h

theorem priceOf_eq (db : DB) (pid : Nat) (p : Product)
    (hp : getProduct db pid = some p) : priceOf db pid = p.price := by
  simp [priceOf, hp]

theorem cartTotal_cons (db : DB) (it : CartLine) (rest : List CartLine) :
    cartTotal db (it :: rest) =
      priceOf db it.productId * (it.quantity : ℚ) + cartTotal db rest := by
  simp [cartTotal]

theorem qtyOf_cons (it : CartLine) (rest : List CartLine) (x : Nat) :
    qtyOf (it :: rest) x =
      (if it.productId = x then it.quantity else 0) + qtyOf rest x := by
  by_cases h : it.productId = x <;> simp [qtyOf, List.filter_cons, h]

/-- Soundness of step 2–4: when every cart line's product exists with enough
stock, the validation loop succeeds and returns exactly
Σ price × quantity over the lines. -/
theorem validateItems_ok (db : DB) (items : List CartLine)
    (h : ∀ it ∈ items, ∃ p, getProduct db it.productId = some p ∧ it.quantity ≤ p.stock) :
    validateItems db items = .ok (cartTotal db items) := by
  induction items with
  | nil => simp [validateItems, cartTotal]
  | cons it rest ih =>
    obtain ⟨p, hp, hs⟩ := h it (by simp)
    have hrest := ih (fun x hx => h x (List.mem_cons_of_mem _ hx))
    simp [validateItems, hp, not_lt.mpr hs, hrest, cartTotal_cons, priceOf_eq db _ p hp]

/-- Inversion of step 2–4: a successful validation implies every line's product
exists with enough stock, and the returned total is Σ price × quantity. -/
theorem validateItems_ok_elim (db : DB) (items : List CartLine) (t : ℚ)
    (h : validateItems db items = .ok t) :
    (∀ it ∈ items, ∃ p, getProduct db it.productId = some p ∧ it.quantity ≤ p.stock) ∧
      t = cartTotal db items := by
  induction items generalizing t with
  | nil =>
    refine ⟨by simp, ?_⟩
    simpa [validateItems, cartTotal] using h.symm
  | cons it rest ih =>
    unfold validateItems at h
    split at h
    · exact absurd h (by simp)
    next p hp =>
      split at h
      · exact absurd h (by simp)
      next hs =>
        split at h
        · exact absurd h (by simp)
        next t2 hv =>
          obtain ⟨hall, ht2⟩ := ih t2 hv
          refine ⟨?_, ?_⟩
          · intro x hx
            rcases List.mem_cons.mp hx with hx | hx
            · exact ⟨p, hx ▸ hp, hx ▸ not_lt.mp hs⟩
            · exact hall x hx
          · have ht : t = p.price * (it.quantity : ℚ) + t2 := by
              simpa using h.symm
            rw [ht, ht2, cartTotal_cons, priceOf_eq db _ p hp]

/-- Full characterization of the mutation loop (step 6): when every referenced
product exists, the loop completes; the only changes are the appended OrderItem
snapshots (one per line, priced at the product's price when the loop started)
and, for each product, a stock decrease by the total quantity the lines request
of it. Prices never change during the loop, so the snapshots equal the prices
the validation loop saw. -/
theorem mutateItems_spec (items : List CartLine) (db : DB) (oid : Nat)
    (h : ∀ it ∈ items, (getProduct db it.productId).isSome) :
    (mutateItems db oid items).2 = true ∧
    (mutateItems db oid items).1.categories = db.categories ∧
    (mutateItems db oid items).1.cart = db.cart ∧
    (mutateItems db oid items).1.orders = db.orders ∧
    (mutateItems db oid items).1.nextOrderId = db.nextOrderId ∧
    (mutateItems db oid items).1.orderItems = db.orderItems ++ items.map (snapItem oid db) ∧
    ∀ x, getProduct (mutateItems db oid items).1 x =
      (getProduct db x).map (fun p => { p with stock := p.stock - qtyOf items x }) := by
  induction items generalizing db with
  | nil =>
    refine ⟨rfl, rfl, rfl, rfl, rfl, by simp [mutateItems], ?_⟩
    intro x
    cases hgx : getProduct db x <;> simp [mutateItems, qtyOf, hgx]
  | cons it rest ih =>
    obtain ⟨p, hp⟩ := Option.isSome_iff_exists.mp (h it (by simp))
    have hmut : mutateItems db oid (it :: rest) =
        mutateItems (decStock (createOrderItem db oid it.productId it.quantity p.price)
          it.productId it.quantity) oid rest := by
      simp [mutateItems, hp]
    set db2 := decStock (createOrderItem db oid it.productId it.quantity p.price)
      it.productId it.quantity with hdb2
    have hg2 : ∀ x, getProduct db2 x =
        if x = it.productId then
          (getProduct db x).map (fun q => { q with stock := q.stock - it.quantity })
        else getProduct db x := by
      intro x
      rw [hdb2, getProduct_decStock, getProduct_createOrderItem]
    have hprice : ∀ y, priceOf db2 y = priceOf db y := by
      intro y
      unfold priceOf
      rw [hg2 y]
      split
      · cases getProduct db y <;> simp
      · rfl
    have hrest : ∀ x ∈ rest, (getProduct db2 x.productId).isSome := by
      intro x hx
      have hmem := h x (List.mem_cons_of_mem _ hx)
      rw [hg2]
      split
      · cases hgx : getProduct db x.productId <;> simp [hgx] at hmem ⊢
      · exact hmem
    obtain ⟨i1, i2, i3, i4, i5, i6, i7⟩ := ih db2 hrest
    rw [hmut]
    refine ⟨i1, i2, i3, i4, i5, ?_, ?_⟩
    · rw [i6]
      have hsnap : rest.map (snapItem oid db2) = rest.map (snapItem oid db) := by
        apply List.map_congr_left
        intro x _
        unfold snapItem
        rw [hprice]
      have hoi : db2.orderItems = db.orderItems ++ [snapItem oid db it] := by
        rw [hdb2]
        simp [decStock, createOrderItem, snapItem, priceOf_eq db _ p hp]
      rw [hsnap, hoi, List.map_cons, List.append_assoc]
      rfl
    · intro x
      rw [i7, hg2]
      by_cases hx : x = it.productId
      · subst hx
        rw [if_pos rfl, Option.map_map]
        have hfun : ((fun p : Product => { p with stock := p.stock - qtyOf rest it.productId }) ∘
            (fun q : Product => { q with stock := q.stock - it.quantity })) =
            (fun p : Product => { p with stock := p.stock - qtyOf (it :: rest) it.productId }) := by
          funext q
          simp [Function.comp, qtyOf_cons, sub_sub]
        rw [hfun]
      · rw [if_neg hx, qtyOf_cons, if_neg (fun hh => hx hh.symm), zero_add]

theorem clearCart_getCartItems (db : DB) (u : Nat) :
    getCartItems (clearCart db u) u = [] := by
  simp [getCartItems, clearCart, List.filter_filter]

/-- Master lemma for a successful checkout run: under the premises of steps 1–4
(non-admin caller, non-empty cart, every line's product present with enough
stock), checkout returns the pending order with total Σ price × quantity,
appends exactly one OrderItem snapshot per cart line, decreases each product's
stock by the total quantity the cart requested of it, and deletes exactly the
user's cart lines. -/
theorem checkout_success (db : DB) (user : User)
    (hrole : ¬ user.role = .admin)
    (hne : ¬ getCartItems db user.id = [])
    (hok : ∀ it ∈ getCartItems db user.id,
      ∃ p, getProduct db it.productId = some p ∧ it.quantity ≤ p.stock) :
    (checkout db user).2 = .ok (pendingOrder db user) ∧
    (checkout db user).1.orders = db.orders ++ [pendingOrder db user] ∧
    (checkout db user).1.orderItems =
      db.orderItems ++ (getCartItems db user.id).map (snapItem db.nextOrderId db) ∧
    (∀ x, getProduct (checkout db user).1 x =
      (getProduct db x).map
        (fun p => { p with stock := p.stock - qtyOf (getCartItems db user.id) x })) ∧
    (checkout db user).1.cart = db.cart.filter (fun c => !(c.userId == user.id)) ∧
    getCartItems (checkout db user).1 user.id = [] ∧
    (checkout db user).1.nextOrderId = db.nextOrderId + 1 ∧
    (checkout db user).1.categories = db.categories := by
  have hval := validateItems_ok db (getCartItems db user.id) hok
  have hni : (getCartItems db user.id).isEmpty = false := by
    cases hl : getCartItems db user.id with
    | nil => exact absurd hl hne
    | cons a l => rfl
  have hpres : ∀ it ∈ getCartItems db user.id,
      (getProduct (createOrder db user.id (cartTotal db (getCartItems db user.id))).1
        it.productId).isSome := by
    intro it hit
    rw [getProduct_createOrder]
    obtain ⟨p, hp, _⟩ := hok it hit
    simp [hp]
  obtain ⟨m1, m2, m3, m4, m5, m6, m7⟩ := mutateItems_spec (getCartItems db user.id)
    (createOrder db user.id (cartTotal db (getCartItems db user.id))).1
    db.nextOrderId hpres
  have hpair : mutateItems
      (createOrder db user.id (cartTotal db (getCartItems db user.id))).1
      db.nextOrderId (getCartItems db user.id) =
      ((mutateItems (createOrder db user.id (cartTotal db (getCartItems db user.id))).1
        db.nextOrderId (getCartItems db user.id)).1, true) := by
    rw [← m1]
  have hch : checkout db user =
      (clearCart (mutateItems
        (createOrder db user.id (cartTotal db (getCartItems db user.id))).1
        db.nextOrderId (getCartItems db user.id)).1 user.id,
       .ok (pendingOrder db user)) := by
    unfold checkout
    rw [if_neg hrole]
    simp only [hni, Bool.false_eq_true, if_false, hval]
    have hoid : (createOrder db user.id (cartTotal db (getCartItems db user.id))).2.id =
        db.nextOrderId := rfl
    conv_lhs => rw [hoid, hpair]
    rfl
  rw [hch]
  have hsnap1 : snapItem db.nextOrderId
      (createOrder db user.id (cartTotal db (getCartItems db user.id))).1 =
      snapItem db.nextOrderId db := rfl
  refine ⟨rfl, ?_, ?_, ?_, ?_, ?_, ?_, ?_⟩
  · show (mutateItems _ _ _).1.orders = _
    rw [m4]
    rfl
  · show (mutateItems _ _ _).1.orderItems = _
    rw [m6, hsnap1]
    rfl
  · intro x
    rw [getProduct_clearCart, m7, getProduct_createOrder]
  · show ((mutateItems _ _ _).1.cart).filter _ = _
    rw [m3]
    rfl
  · show ((clearCart (mutateItems _ _ _).1 user.id).cart).filter _ = _
    have := clearCart_getCartItems (mutateItems
      (createOrder db user.id (cartTotal db (getCartItems db user.id))).1
      db.nextOrderId (getCartItems db user.id)).1 user.id
    exact this
  · show (mutateItems _ _ _).1.nextOrderId = _
    rw [m5]
    rfl
  · show (mutateItems _ _ _).1.categories = _
    rw [m2]
    rfl

theorem qtyOf_eq_zero (items : List CartLine) (x : Nat)
    (hx : x ∉ items.map CartLine.productId) : qtyOf items x = 0 := by
  induction items with
  | nil => rfl
  | cons a rest ih =>
    simp only [List.map_cons, List.mem_cons, not_or] at hx
    rw [qtyOf_cons, if_neg (fun h => hx.1 h.symm), ih hx.2, add_zero]

/-- In a cart with one row per product (the data model's key constraint),
the total quantity requested of a line's product is that line's quantity. -/
theorem qtyOf_of_nodup (items : List CartLine)
    (hnd : (items.map CartLine.productId).Nodup) (it : CartLine) (hit : it ∈ items) :
    qtyOf items it.productId = it.quantity := by
  induction items with
  | nil => cases hit
  | cons a rest ih =>
    rw [List.map_cons, List.nodup_cons] at hnd
    rcases List.mem_cons.mp hit with h | h
    · subst h
      rw [qtyOf_cons, if_pos rfl, qtyOf_eq_zero rest it.productId hnd.1, add_zero]
    · have hne : ¬ a.productId = it.productId := by
        intro hc
        exact hnd.1 (hc ▸ List.mem_map_of_mem CartLine.productId h)
      rw [qtyOf_cons, if_neg hne, ih hnd.2 h, zero_add]

/-- Validation failures (steps 1–4) and the admin gate leave the store exactly
as it was: the only error that can follow a mutation is `internalFault`. -/
theorem checkout_error_state (db : DB) (user : User) (db' : DB) (e : CheckoutError)
    (h : checkout db user = (db', .error e)) (hne : ¬ e = .internalFault) :
    db' = db := by
  simp only [checkout] at h
  split at h
  · exact (Prod.mk.injEq _ _ _ _ ▸ h).1.symm
  · split at h
    · exact (Prod.mk.injEq _ _ _ _ ▸ h).1.symm
    · split at h
      · exact (Prod.mk.injEq _ _ _ _ ▸ h).1.symm
      · split at h
        · obtain ⟨h1, h2⟩ := Prod.mk.injEq _ _ _ _ ▸ h
          exact absurd (Except.error.injEq _ _ ▸ h2).symm hne
        · exact absurd (Prod.mk.injEq _ _ _ _ ▸ h).2 (by simp)

theorem checkout_of_admin (db : DB) (user : User) (h : user.role = .admin) :
    checkout db user = (db, .error .forbidden) := by
  simp [checkout, h]

theorem checkout_of_emptyCart (db : DB) (user : User)
    (h1 : ¬ user.role = .admin) (h2 : getCartItems db user.id = []) :
    checkout db user = (db, .error .emptyCart) := by
  simp [checkout, h1, h2]

theorem checkout_of_validateError (db : DB) (user : User) (e : CheckoutError)
    (h1 : ¬ user.role = .admin) (h2 : ¬ getCartItems db user.id = [])
    (h3 : validateItems db (getCartItems db user.id) = .error e) :
    checkout db user = (db, .error e) := by
  have hni : (getCartItems db user.id).isEmpty = false := by
    cases hl : getCartItems db user.id with
    | nil => exact absurd hl h2
    | cons a l => rfl
  simp [checkout, h1, hni, h3]

/-! ### Component-preservation lemmas for the non-order operations -/

theorem apiAddToCart_orders (db : DB) (u p : Nat) (q : Int) :
    (apiAddToCart db u p q).1.orders = db.orders ∧
    (apiAddToCart db u p q).1.orderItems = db.orderItems ∧
    (apiAddToCart db u p q).1.nextOrderId = db.nextOrderId := by
  unfold apiAddToCart addToCart
  repeat' split
  all_goals exact ⟨rfl, rfl, rfl⟩

theorem updateCartItem_comp (db : DB) (u p : Nat) (q : Int) :
    (updateCartItem db u p q).1.orders = db.orders ∧
    (updateCartItem db u p q).1.orderItems = db.orderItems ∧
    (updateCartItem db u p q).1.nextOrderId = db.nextOrderId := by
  unfold updateCartItem
  split
  all_goals exact ⟨rfl, rfl, rfl⟩

theorem apiUpdateCartItem_orders (db : DB) (u p : Nat) (q : Int) :
    (apiUpdateCartItem db u p q).1.orders = db.orders ∧
    (apiUpdateCartItem db u p q).1.orderItems = db.orderItems ∧
    (apiUpdateCartItem db u p q).1.nextOrderId = db.nextOrderId := by
  have hc := updateCartItem_comp db u p q
  unfold apiUpdateCartItem
  split
  · exact ⟨rfl, rfl, rfl⟩
  · split
    · exact ⟨rfl, rfl, rfl⟩
    · split
      next db1 heq =>
        rw [heq] at hc
        exact ⟨hc.1, hc.2.1, hc.2.2⟩
      next db1 line heq =>
        rw [heq] at hc
        exact ⟨hc.1, hc.2.1, hc.2.2⟩

theorem removeFromCart_comp (db : DB) (u p : Nat) :
    (removeFromCart db u p).1.orders = db.orders ∧
    (removeFromCart db u p).1.orderItems = db.orderItems ∧
    (removeFromCart db u p).1.nextOrderId = db.nextOrderId := by
  unfold removeFromCart
  split
  all_goals exact ⟨rfl, rfl, rfl⟩

theorem apiRemoveFromCart_orders (db : DB) (u p : Nat) :
    (apiRemoveFromCart db u p).1.orders = db.orders ∧
    (apiRemoveFromCart db u p).1.orderItems = db.orderItems ∧
    (apiRemoveFromCart db u p).1.nextOrderId = db.nextOrderId := by
  have hc := removeFromCart_comp db u p
  unfold apiRemoveFromCart
  split
  next db1 heq =>
    rw [heq] at hc
    exact ⟨hc.1, hc.2.1, hc.2.2⟩
  next db1 heq =>
    rw [heq] at hc
    exact ⟨hc.1, hc.2.1, hc.2.2⟩

theorem updateProduct_comp (db : DB) (p : Nat) (u : ProductUpdate) :
    (updateProduct db p u).1.orders = db.orders ∧
    (updateProduct db p u).1.orderItems = db.orderItems ∧
    (updateProduct db p u).1.nextOrderId = db.nextOrderId := by
  unfold updateProduct
  split
  all_goals exact ⟨rfl, rfl, rfl⟩

theorem apiUpdateProduct_orders (db : DB) (p : Nat) (u : ProductUpdate) :
    (apiUpdateProduct db p u).1.orders = db.orders ∧
    (apiUpdateProduct db p u).1.orderItems = db.orderItems ∧
    (apiUpdateProduct db p u).1.nextOrderId = db.nextOrderId := by
  have hc := updateProduct_comp db p u
  unfold apiUpdateProduct
  split
  · exact ⟨rfl, rfl, rfl⟩
  · split
    · exact ⟨rfl, rfl, rfl⟩
    · split
      · exact ⟨rfl, rfl, rfl⟩
      · split
        next db1 heq =>
          rw [heq] at hc
          exact ⟨hc.1, hc.2.1, hc.2.2⟩
        next db1 p2 heq =>
          rw [heq] at hc
          exact ⟨hc.1, hc.2.1, hc.2.2⟩

theorem deleteProduct_orders (db : DB) (p : Nat) :
    (deleteProduct db p).1.orders = db.orders ∧
    (deleteProduct db p).1.orderItems = db.orderItems ∧
    (deleteProduct db p).1.nextOrderId = db.nextOrderId := by
  unfold deleteProduct
  repeat' split
  all_goals exact ⟨rfl, rfl, rfl⟩

theorem mem_updateFirstOrder (os : List Order) (oid : Nat) (f : Order → Order)
    (o' : Order) (h : o' ∈ updateFirstOrder os oid f) :
    o' ∈ os ∨ ∃ o ∈ os, o' = f o := by
  induction os with
  | nil => cases h
  | cons a rest ih =>
    unfold updateFirstOrder at h
    split at h
    · rcases List.mem_cons.mp h with h | h
      · exact Or.inr ⟨a, by simp, h⟩
      · exact Or.inl (List.mem_cons_of_mem _ h)
    · rcases List.mem_cons.mp h with h | h
      · exact Or.inl (h ▸ List.mem_cons_self _ _)
      · rcases ih h with h | ⟨o, ho, hfo⟩
        · exact Or.inl (List.mem_cons_of_mem _ h)
        · exact Or.inr ⟨o, List.mem_cons_of_mem _ ho, hfo⟩

theorem updateOrderStatus_items (db : DB) (oid : Nat) (s : OrderStatus) :
    (updateOrderStatus db oid s).1.orderItems = db.orderItems ∧
    (updateOrderStatus db oid s).1.nextOrderId = db.nextOrderId := by
  unfold updateOrderStatus
  repeat' split
  all_goals exact ⟨rfl, rfl⟩

theorem updateOrderStatus_mem (db : DB) (oid : Nat) (s : OrderStatus)
    (o' : Order) (h : o' ∈ (updateOrderStatus db oid s).1.orders) :
    ∃ o ∈ db.orders, o'.id = o.id ∧ o'.totalPrice = o.totalPrice := by
  unfold updateOrderStatus at h
  split at h
  · exact ⟨o', h, rfl, rfl⟩
  · rcases mem_updateFirstOrder _ _ _ _ h with h | ⟨o, ho, hfo⟩
    · exact ⟨o', h, rfl, rfl⟩
    · exact ⟨o, ho, by rw [hfo], by rw [hfo]⟩

/-- Preservation is immediate for operations that leave orders, order items
and the id counter untouched. -/
theorem pres_of_eq (db db' : DB)
    (ho : db'.orders = db.orders) (hi : db'.orderItems = db.orderItems)
    (hn : db'.nextOrderId = db.nextOrderId)
    (hwf : WF db) (hinv : ordersTotalsOk db) : WF db' ∧ ordersTotalsOk db' := by
  constructor
  · rw [WF, ho, hi, hn]
    exact hwf
  · rw [ordersTotalsOk, ho, hi]
    exact hinv

theorem snap_sum (db : DB) (nid : Nat) (items : List CartLine) :
    ((items.map (snapItem nid db)).map (fun it => (it.quantity : ℚ) * it.price)).sum =
      cartTotal db items := by
  rw [List.map_map]
  unfold cartTotal
  apply congrArg List.sum
  apply List.map_congr_left
  intro x _
  simp [snapItem, Function.comp, mul_comm]

theorem snap_filter_self (db : DB) (nid : Nat) (items : List CartLine) :
    (items.map (snapItem nid db)).filter (fun it => it.orderId == nid) =
      items.map (snapItem nid db) := by
  apply List.filter_eq_self.mpr
  intro a ha
  obtain ⟨x, _, hx⟩ := List.mem_map.mp ha
  rw [← hx]
  simp [snapItem]

theorem old_filter_nil (l : List OrderItem) (nid : Nat)
    (h : ∀ it ∈ l, it.orderId < nid) :
    l.filter (fun it => it.orderId == nid) = [] := by
  apply List.filter_eq_nil_iff.mpr
  intro a ha
  simp only [beq_iff_eq]
  exact Nat.ne_of_lt (h a ha)

theorem snap_filter_ne (db : DB) (nid : Nat) (items : List CartLine) (x : Nat)
    (h : ¬ x = nid) :
    (items.map (snapItem nid db)).filter (fun it => it.orderId == x) = [] := by
  apply List.filter_eq_nil_iff.mpr
  intro a ha
  obtain ⟨y, _, hy⟩ := List.mem_map.mp ha
  rw [← hy]
  simp only [snapItem, beq_iff_eq]
  exact fun hc => h hc.symm

/-- Every committed operation of the system preserves well-formedness of the
order-id counter and the per-order total-price invariant; in particular the
order a successful checkout creates satisfies it the moment it is persisted. -/
theorem step_preserves (db db' : DB) (hwf : WF db) (hinv : ordersTotalsOk db)
    (hstep : Step db db') : WF db' ∧ ordersTotalsOk db' := by
  cases hstep with
  | addCart u p q =>
    obtain ⟨a, b, c⟩ := apiAddToCart_orders db u p q
    exact pres_of_eq _ _ a b c hwf hinv
  | updateCart u p q =>
    obtain ⟨a, b, c⟩ := apiUpdateCartItem_orders db u p q
    exact pres_of_eq _ _ a b c hwf hinv
  | removeCart u p =>
    obtain ⟨a, b, c⟩ := apiRemoveFromCart_orders db u p
    exact pres_of_eq _ _ a b c hwf hinv
  | clear u =>
    exact pres_of_eq _ _ rfl rfl rfl hwf hinv
  | newProduct p =>
    exact pres_of_eq _ _ rfl rfl rfl hwf hinv
  | editProduct p u =>
    obtain ⟨a, b, c⟩ := apiUpdateProduct_orders db p u
    exact pres_of_eq _ _ a b c hwf hinv
  | dropProduct p =>
    obtain ⟨a, b, c⟩ := deleteProduct_orders db p
    exact pres_of_eq _ _ a b c hwf hinv
  | orderStatus oid s =>
    obtain ⟨hi, hn⟩ := updateOrderStatus_items db oid s
    refine ⟨⟨?_, ?_⟩, ?_⟩
    · intro o' ho'
      obtain ⟨o, ho, hid, _⟩ := updateOrderStatus_mem db oid s o' ho'
      rw [hn, hid]
      exact hwf.1 o ho
    · intro it hit
      rw [hi] at hit
      rw [hn]
      exact hwf.2 it hit
    · intro o' ho'
      obtain ⟨o, ho, hid, htp⟩ := updateOrderStatus_mem db oid s o' ho'
      rw [hi, htp, hid]
      exact hinv o ho
  | doCheckout user =>
    by_cases hadmin : user.role = .admin
    · rw [checkout_of_admin db user hadmin]
      exact ⟨hwf, hinv⟩
    · by_cases hempty : getCartItems db user.id = []
      · rw [checkout_of_emptyCart db user hadmin hempty]
        exact ⟨hwf, hinv⟩
      · cases hv : validateItems db (getCartItems db user.id) with
        | error e =>
          rw [checkout_of_validateError db user e hadmin hempty hv]
          exact ⟨hwf, hinv⟩
        | ok t =>
          obtain ⟨hok, _⟩ := validateItems_ok_elim db _ t hv
          obtain ⟨s1, s2, s3, s4, s5, s6, s7, s8⟩ :=
            checkout_success db user hadmin hempty hok
          refine ⟨⟨?_, ?_⟩, ?_⟩
          · intro o ho
            rw [s2] at ho
            rw [s7]
            rcases List.mem_append.mp ho with h | h
            · exact lt_trans (hwf.1 o h) (Nat.lt_succ_self _)
            · have : o = pendingOrder db user := by simpa using h
              rw [this]
              exact Nat.lt_succ_self _
          · intro it hit
            rw [s3] at hit
            rw [s7]
            rcases List.mem_append.mp hit with h | h
            · exact lt_trans (hwf.2 it h) (Nat.lt_succ_self _)
            · obtain ⟨y, _, hy⟩ := List.mem_map.mp h
              rw [← hy]
              exact Nat.lt_succ_self _
          · intro o ho
            rw [s2] at ho
            rw [s3]
            rcases List.mem_append.mp ho with h | h
            · rw [List.filter_append,
                snap_filter_ne db db.nextOrderId _ o.id (Nat.ne_of_lt (hwf.1 o h)),
                List.append_nil]
              exact hinv o h
            · have heq : o = pendingOrder db user := by simpa using h
              rw [heq]
              show cartTotal db (getCartItems db user.id) = _
              rw [List.filter_append]
              have hid : (pendingOrder db user).id = db.nextOrderId := rfl
              rw [hid, old_filter_nil db.orderItems db.nextOrderId hwf.2,
                snap_filter_self db db.nextOrderId (getCartItems db user.id),
                List.nil_append, snap_sum]

theorem mem_updateFirstCart (cart : List CartLine) (u p : Nat) (f : CartLine → CartLine)
    (c : CartLine) (h : c ∈ updateFirstCart cart u p f) :
    c ∈ cart ∨ ∃ c0 ∈ cart, c = f c0 := by
  induction cart with
  | nil => cases h
  | cons a rest ih =>
    unfold updateFirstCart at h
    split at h
    · rcases List.mem_cons.mp h with h | h
      · exact Or.inr ⟨a, by simp, h⟩
      · exact Or.inl (List.mem_cons_of_mem _ h)
    · rcases List.mem_cons.mp h with h | h
      · exact Or.inl (h ▸ List.mem_cons_self _ _)
      · rcases ih h with h | ⟨c0, hc0, hcf⟩
        · exact Or.inl (List.mem_cons_of_mem _ h)
        · exact Or.inr ⟨c0, List.mem_cons_of_mem _ hc0, hcf⟩

/-- crud.add_to_cart keeps all quantities positive when fed a positive quantity. -/
theorem addToCart_pos (db : DB) (u p : Nat) (q : Int) (hq : 0 < q)
    (hpos : ∀ c ∈ db.cart, 0 < c.quantity) :
    ∀ c ∈ (addToCart db u p q).1.cart, 0 < c.quantity := by
  unfold addToCart
  split
  · intro c hc
    rcases mem_updateFirstCart _ _ _ _ c hc with h | ⟨c0, hc0, hcf⟩
    · exact hpos c h
    · rw [hcf]
      exact add_pos (hpos c0 hc0) hq
  · intro c hc
    rcases List.mem_append.mp hc with h | h
    · exact hpos c h
    · have : c = { userId := u, productId := p, quantity := q } := by simpa using h
      rw [this]
      exact hq

/-- crud.update_cart_item keeps all quantities positive when fed a positive
quantity. -/
theorem updateCartItem_pos (db : DB) (u p : Nat) (q : Int) (hq : 0 < q)
    (hpos : ∀ c ∈ db.cart, 0 < c.quantity) :
    ∀ c ∈ (updateCartItem db u p q).1.cart, 0 < c.quantity := by
  unfold updateCartItem
  split
  · exact hpos
  · intro c hc
    rcases mem_updateFirstCart _ _ _ _ c hc with h | ⟨c0, hc0, hcf⟩
    · exact hpos c h
    · rw [hcf]
      exact hq

theorem updateFirstCart_cons (a : CartLine) (l : List CartLine) (u p : Nat)
    (f : CartLine → CartLine) :
    updateFirstCart (a :: l) u p f =
      if a.userId == u && a.productId == p then f a :: l
      else a :: updateFirstCart l u p f := rfl

theorem updateFirstCart_append_nomatch (xs ys : List CartLine) (u p : Nat)
    (f : CartLine → CartLine)
    (h : ∀ c ∈ xs, (c.userId == u && c.productId == p) = false) :
    updateFirstCart (xs ++ ys) u p f = xs ++ updateFirstCart ys u p f := by
  induction xs with
  | nil => rfl
  | cons a rest ih =>
    have ha := h a (by simp)
    rw [List.cons_append, updateFirstCart_cons, ha]
    simp only [Bool.false_eq_true, if_false]
    rw [ih (fun c hc => h c (List.mem_cons_of_mem _ hc)), List.cons_append]

theorem removeFirstCart_length (cart : List CartLine) (u p : Nat)
    (h : ¬ cart.filter (fun c => c.userId == u && c.productId == p) = []) :
    (removeFirstCart cart u p).length + 1 = cart.length := by
  induction cart with
  | nil => exact absurd rfl h
  | cons a rest ih =>
    rw [List.filter_cons] at h
    unfold removeFirstCart
    by_cases ha : (a.userId == u && a.productId == p) = true
    · rw [if_pos ha]
      rfl
    · rw [if_neg ha]
      rw [Bool.not_eq_true] at ha
      rw [ha] at h
      simp only [Bool.false_eq_true, if_false] at h
      rw [List.length_cons, List.length_cons, ih h]

/-- The sequential checkout is exactly its validation phase followed by its
mutation phase: the phase split used to model interleavings introduces no new
behavior. -/
theorem checkout_eq_phases (db : DB) (user : User) :
    checkout db user =
      (match checkoutValidatePhase db user with
      | .error e => (db, .error e)
      | .ok (items, total) => checkoutMutatePhase db user items total) := by
  unfold checkout checkoutValidatePhase checkoutMutatePhase
  by_cases h : user.role = .admin
  · simp [h]
  · cases he : (getCartItems db user.id).isEmpty
    · cases hv : validateItems db (getCartItems db user.id) <;> simp [h, he, hv]
    · simp [h, he]

/-! ### Claim theorems -/

/-- C1: for every user whose cart is non-empty, keyed one row per product, and
in which every line references an existing product with stock ≥ line quantity,
checkout succeeds and returns a pending Order whose total is Σ price × quantity
over the cart lines; afterwards one OrderItem per cart line snapshots
(productId, quantity, unit price at checkout), each referenced product's stock
is decreased by exactly that line's quantity, and the user's cart is empty. -/
theorem C1_checkout_success_contract (db : DB) (user : User)
    (hrole : ¬ user.role = .admin)
    (hne : ¬ getCartItems db user.id = [])
    (hnodup : ((getCartItems db user.id).map CartLine.productId).Nodup)
    (hok : ∀ it ∈ getCartItems db user.id,
      ∃ p, getProduct db it.productId = some p ∧ it.quantity ≤ p.stock) :
    ∃ order, (checkout db user).2 = .ok order ∧
      order.status = .pending ∧
      order.totalPrice = cartTotal db (getCartItems db user.id) ∧
      (checkout db user).1.orderItems =
        db.orderItems ++ (getCartItems db user.id).map (snapItem db.nextOrderId db) ∧
      (∀ it ∈ getCartItems db user.id, ∀ p, getProduct db it.productId = some p →
        getProduct (checkout db user).1 it.productId =
          some { p with stock := p.stock - it.quantity }) ∧
      getCartItems (checkout db user).1 user.id = [] := by
  obtain ⟨s1, s2, s3, s4, s5, s6, s7, s8⟩ := checkout_success db user hrole hne hok
  refine ⟨pendingOrder db user, s1, rfl, rfl, s3, ?_, s6⟩
  intro it hit p hp
  have h4 := s4 it.productId
  rw [hp] at h4
  rw [h4, qtyOf_of_nodup _ hnodup it hit]
  rfl

/-- Witness for C1 at Scenario C: price 19.99, stock 10, quantity 2 gives
total 39.98, stock 8, and an empty cart. -/
theorem C1_checkout_success_contract_witness :
    (∃ order, (checkout dbScenC cust7).2 = .ok order ∧
      order.status = .pending ∧
      order.totalPrice = cartTotal dbScenC (getCartItems dbScenC cust7.id) ∧
      (checkout dbScenC cust7).1.orderItems =
        dbScenC.orderItems ++
          (getCartItems dbScenC cust7.id).map (snapItem dbScenC.nextOrderId dbScenC) ∧
      (∀ it ∈ getCartItems dbScenC cust7.id, ∀ p, getProduct dbScenC it.productId = some p →
        getProduct (checkout dbScenC cust7).1 it.productId =
          some { p with stock := p.stock - it.quantity }) ∧
      getCartItems (checkout dbScenC cust7).1 cust7.id = []) ∧
    cartTotal dbScenC (getCartItems dbScenC cust7.id) = 3998/100 ∧
    (getProduct (checkout dbScenC cust7).1 1).map Product.stock = some 8 := by
  refine ⟨C1_checkout_success_contract dbScenC cust7 (by decide) (by decide) (by decide) ?_,
    ?_, by decide⟩
  · intro it hit
    have hi : it = { userId := 7, productId := 1, quantity := 2 } := by
      have hh := hit
      simp [getCartItems, dbScenC, cust7] at hh
      exact hh
    subst hi
    exact ⟨{ id := 1, name := "Widget", price := 1999/100, stock := 10, categoryId := 1 },
      rfl, by decide⟩
  · simp [cartTotal, getCartItems, priceOf, getProduct, dbScenC, cust7]
    norm_num

/-- C2: the spec's invariant `stock ≥ 0 after every committed operation` is
broken by the admin product update: schemas.ProductUpdate (unlike
schemas.ProductCreate) has no stock validator, and neither the router nor
crud.update_product checks the sign, so updating stock to −5 from a store
whose stocks are all non-negative commits −5. -/
theorem C2_admin_update_commits_negative_stock :
    (∀ p ∈ dbScenC.products, 0 ≤ p.stock) ∧
    (apiUpdateProduct dbScenC 1 negStockUpdate).2 =
      .ok { id := 1, name := "Widget", price := 1999/100, stock := -5, categoryId := 1 } ∧
    (apiUpdateProduct dbScenC 1 negStockUpdate).1.products.map Product.stock = [-5] :=
  ⟨by decide, rfl, by decide⟩

/-- C3: steps 5–7 of checkout are not one all-or-nothing unit. Each
sub-operation calls `db.commit()` on its own, so a storage fault right after
the first OrderItem insert of a two-line checkout (commit index 1 of
`checkoutCommitStates`) leaves a committed Order with one of its two
OrderItems, both stocks undecremented, and the cart intact — while the full
run would have written two OrderItems. -/
theorem C3_fault_mid_loop_leaves_partial_order :
    faultedState.orders.length = 1 ∧
    faultedState.orderItems.length = 1 ∧
    faultedState.cart = dbTwoLines.cart ∧
    (getProduct faultedState 1).map Product.stock = some 4 ∧
    (getProduct faultedState 2).map Product.stock = some 6 ∧
    (checkout dbTwoLines cust7).1.orderItems.length = 2 := by
  decide

/-- C4: when checkout fails during validation (steps 1–4: EmptyCart,
ProductMissing or InsufficientStock), the returned store is exactly the input
store — no Order, OrderItem, stock change or cart mutation. -/
theorem C4_validation_failure_leaves_stores_unchanged (db : DB) (user : User)
    (db' : DB) (e : CheckoutError)
    (h : checkout db user = (db', .error e))
    (he : e = .emptyCart ∨ (∃ pid, e = .productMissing pid) ∨
      ∃ n a, e = .insufficientStock n a) :
    db' = db := by
  apply checkout_error_state db user db' e h
  rcases he with he | ⟨pid, he⟩ | ⟨n, a, he⟩ <;> (subst he; simp)

/-- Witness for C4 at Scenario B: stock 5, cart quantity 10 fails
InsufficientStock naming available=5, and the store is unchanged. -/
theorem C4_validation_failure_leaves_stores_unchanged_witness :
    checkout dbScenB cust7 = (dbScenB, .error (.insufficientStock "Widget" 5)) ∧
    (checkout dbScenB cust7).1 = dbScenB :=
  ⟨rfl, C4_validation_failure_leaves_stores_unchanged dbScenB cust7
    (checkout dbScenB cust7).1 (.insufficientStock "Widget" 5) rfl
    (Or.inr (Or.inr ⟨"Widget", 5, rfl⟩))⟩

/-- C5: `Order.total_price = Σ OrderLine.quantity × OrderLine.price` holds for
every persisted order after any committed operation of the system (checkout
included, which is where orders are created), starting from any well-formed
store satisfying it. -/
theorem C5_order_total_matches_lines (db db' : DB)
    (hwf : WF db) (hinv : ordersTotalsOk db) (hstep : Step db db') :
    WF db' ∧ ordersTotalsOk db' :=
  step_preserves db db' hwf hinv hstep

/-- Witness for C5: the checkout of Scenario C preserves the invariant. -/
theorem C5_order_total_matches_lines_witness :
    WF (checkout dbScenC cust7).1 ∧ ordersTotalsOk (checkout dbScenC cust7).1 :=
  C5_order_total_matches_lines dbScenC (checkout dbScenC cust7).1
    (by refine ⟨?_, ?_⟩ <;> simp [dbScenC])
    (by intro o ho; simp [dbScenC] at ho)
    (Step.doCheckout dbScenC cust7)

/-- C6: the code does NOT re-validate stock at decrement time, so the claimed
exactly-one-winner behavior fails: with stock 1 and two checkouts for a
quantity-1 cart line interleaved as validate₁ validate₂ mutate₁ mutate₂ (a
legal schedule, since every store call commits and no lock spans steps 3–6),
BOTH calls succeed and the final stock is −1. -/
theorem C6_interleaved_checkouts_oversell :
    checkoutValidatePhase dbScenD cust7 =
      .ok ([{ userId := 7, productId := 1, quantity := 1 }], 5) ∧
    (twoInterleavedCheckouts dbScenD cust7).2.1 =
      .ok { id := 1, userId := 7, totalPrice := 5, status := .pending } ∧
    (twoInterleavedCheckouts dbScenD cust7).2.2 =
      .ok { id := 2, userId := 7, totalPrice := 5, status := .pending } ∧
    (getProduct (twoInterleavedCheckouts dbScenD cust7).1 1).map Product.stock =
      some (-1) := by
  refine ⟨?_, ?_, ?_, by decide⟩ <;>
    simp [twoInterleavedCheckouts, checkoutValidatePhase, checkoutMutatePhase,
      validateItems, mutateItems, dbScenD, cust7, getCartItems, getProduct,
      createOrder, createOrderItem, decStock, clearCart, updateFirstProduct]

/-- C7: adding the same product twice merges into a single cart line whose
quantity is the sum — starting from a cart with no (u, p) line, add q1 then
add q2 yields exactly one (u, p) line with quantity q1 + q2. -/
theorem C7_add_to_cart_merge_law (db : DB) (u p : Nat) (q1 q2 : Int)
    (_h1 : 0 < q1) (_h2 : 0 < q2)
    (hnone : db.cart.filter (fun c => c.userId == u && c.productId == p) = []) :
    ((addToCart (addToCart db u p q1).1 u p q2).1.cart).filter
      (fun c => c.userId == u && c.productId == p) =
      [{ userId := u, productId := p, quantity := q1 + q2 }] := by
  have hfalse : ∀ c ∈ db.cart, (c.userId == u && c.productId == p) = false := by
    intro c hc
    have := List.filter_eq_nil_iff.mp hnone c hc
    simpa using this
  have hget1 : getCartItem db u p = none := by
    unfold getCartItem
    rw [hnone]
    rfl
  have hcart1 : (addToCart db u p q1).1.cart =
      db.cart ++ [{ userId := u, productId := p, quantity := q1 }] := by
    unfold addToCart
    rw [hget1]
  have hget2 : getCartItem (addToCart db u p q1).1 u p =
      some { userId := u, productId := p, quantity := q1 } := by
    unfold getCartItem
    rw [hcart1, List.filter_append, hnone]
    simp
  have hcart2 : (addToCart (addToCart db u p q1).1 u p q2).1.cart =
      db.cart ++ [{ userId := u, productId := p, quantity := q1 + q2 }] := by
    conv_lhs => rw [addToCart]
    rw [hget2]
    show updateFirstCart (addToCart db u p q1).1.cart u p _ = _
    rw [hcart1, updateFirstCart_append_nomatch _ _ _ _ _ hfalse, updateFirstCart_cons]
    simp
  rw [hcart2, List.filter_append, hnone]
  simp

/-- Witness for C7: adding 2 then 3 of a product yields one line with
quantity 5. -/
theorem C7_add_to_cart_merge_law_witness :
    ((addToCart (addToCart dbEmptyCart 7 1 2).1 7 1 3).1.cart).filter
      (fun c => c.userId == 7 && c.productId == 1) =
      [{ userId := 7, productId := 1, quantity := 5 }] :=
  C7_add_to_cart_merge_law dbEmptyCart 7 1 2 3 (by decide) (by decide) (by decide)

/-- C8 counterexample: the claim that every cart line stays positive is false —
the add endpoint checks only the stock upper bound, so adding quantity 0 to an
empty cart succeeds and commits a (user, product) line with quantity 0. -/
theorem C8_zero_quantity_line_created :
    (∀ c ∈ dbEmptyCart.cart, 0 < c.quantity) ∧
    (apiAddToCart dbEmptyCart 9 1 0).2 =
      .ok { userId := 9, productId := 1, quantity := 0 } ∧
    (apiAddToCart dbEmptyCart 9 1 0).1.cart =
      [{ userId := 9, productId := 1, quantity := 0 }] :=
  ⟨by decide, rfl, rfl⟩

/-- C8 amended: add and setQuantity do not enforce positivity of the requested
quantity; what holds is preservation — when the requested quantity is positive
and every existing line is positive, every line after add or setQuantity is
still positive. -/
theorem C8_positive_inputs_keep_lines_positive (db : DB) (userId productId : Nat)
    (q : Int) (hq : 0 < q) (hpos : ∀ c ∈ db.cart, 0 < c.quantity) :
    (∀ c ∈ (apiAddToCart db userId productId q).1.cart, 0 < c.quantity) ∧
    (∀ c ∈ (apiUpdateCartItem db userId productId q).1.cart, 0 < c.quantity) := by
  constructor
  · unfold apiAddToCart
    split
    · exact hpos
    · split
      · exact hpos
      · exact addToCart_pos db userId productId q hq hpos
  · unfold apiUpdateCartItem
    split
    · exact hpos
    · split
      · exact hpos
      · split
        next db1 heq =>
          have hp := updateCartItem_pos db userId productId q hq hpos
          rw [heq] at hp
          exact hp
        next db1 line heq =>
          have hp := updateCartItem_pos db userId productId q hq hpos
          rw [heq] at hp
          exact hp

/-- Witness for the amended C8: adding 2 of a product to an all-positive cart
keeps every line positive, for both endpoints. -/
theorem C8_positive_inputs_keep_lines_positive_witness :
    (∀ c ∈ (apiAddToCart dbEmptyCart 7 1 2).1.cart, 0 < c.quantity) ∧
    (∀ c ∈ (apiUpdateCartItem dbEmptyCart 7 1 2).1.cart, 0 < c.quantity) :=
  C8_positive_inputs_keep_lines_positive dbEmptyCart 7 1 2 (by decide) (by decide)

/-- C9: removing a cart line reports true exactly when the line existed (the
router turns false into 404); removing a nonexistent line leaves the store
unchanged, and a successful removal deletes exactly one row. -/
theorem C9_remove_returns_existence (db : DB) (u p : Nat) :
    (getCartItem db u p = none →
      removeFromCart db u p = (db, false) ∧
      (apiRemoveFromCart db u p).2 = .error .cartItemNotFound) ∧
    ((removeFromCart db u p).2 = true ↔ (getCartItem db u p).isSome = true) ∧
    ((removeFromCart db u p).2 = true →
      (removeFromCart db u p).1.cart.length + 1 = db.cart.length) := by
  refine ⟨?_, ?_, ?_⟩
  · intro h
    exact ⟨by simp [removeFromCart, h], by simp [apiRemoveFromCart, removeFromCart, h]⟩
  · unfold removeFromCart
    cases hgc : getCartItem db u p <;> simp
  · unfold removeFromCart
    cases hgc : getCartItem db u p with
    | none => exact fun htrue => absurd htrue (by simp)
    | some c =>
      intro _
      show (removeFirstCart db.cart u p).length + 1 = db.cart.length
      apply removeFirstCart_length
      intro hnil
      unfold getCartItem at hgc
      rw [hnil] at hgc
      simp at hgc

/-- Witness for C9: removing from an empty cart returns false / 404 and leaves
the store unchanged. -/
theorem C9_remove_returns_existence_witness :
    removeFromCart dbEmptyCart 7 1 = (dbEmptyCart, false) ∧
    (apiRemoveFromCart dbEmptyCart 7 1).2 = .error .cartItemNotFound :=
  (C9_remove_returns_existence dbEmptyCart 7 1).1 rfl

/-- C10: an admin caller is rejected with Forbidden before the cart is read,
and the store is returned unchanged — only customers can check out. -/
theorem C10_admin_checkout_forbidden (db : DB) (user : User)
    (h : user.role = .admin) :
    checkout db user = (db, .error .forbidden) :=
  checkout_of_admin db user h

/-- Witness for C10 at a concrete admin caller. -/
theorem C10_admin_checkout_forbidden_witness :
    checkout dbScenC { id := 1, role := .admin } = (dbScenC, .error .forbidden) :=
  C10_admin_checkout_forbidden dbScenC { id := 1, role := .admin } rfl

end ECom
